import Mathlib

/-!
Verification development for the craft-mcp-wrapper repository.

The development shallowly embeds the core of the repository:

* `craft-api.ts` (`fetchBlocks`, `searchBlocks`) — the upstream HTTP client,
  with the network outcome abstracted as an explicit `HttpOutcome` value;
* `tools.ts` (`searchAllNotes`, `searchDocument`, `readDocument`, `readBlock`,
  and the response-size management pass `calculateResponseSize` /
  `truncateResponse` / `truncateObject`).

JSON-serialisable JavaScript values are modelled by the inductive family
`Json` / `JsonList` / `JsonFields`; `JSON.stringify` is modelled by
`jsonStringify`, and `Buffer.byteLength(·, 'utf8')` by `String.utf8ByteSize`.

Modelling conventions, noted once here:
* JavaScript numbers are restricted to integers (`Int`), whose
  `JSON.stringify` rendering coincides with `toString`.
* JavaScript string `.length` counts UTF-16 code units and Lean's
  `String.length` counts code points; the two agree on all code points of
  the basic multilingual plane, which is the regime modelled here.
* The floating-point products `targetSize * 0.9` and quotient
  `targetSize / 4` of the source are modelled exactly over `ℚ`.
-/

namespace Craft

mutual

/-- A JSON-serialisable JavaScript value (`any` that survives
`JSON.stringify`): null, booleans, (integer) numbers, strings, arrays and
plain objects with ordered fields. -/
inductive Json where
  | null : Json
  | bool (b : Bool) : Json
  | num (n : Int) : Json
  | str (s : String) : Json
  | arr (elems : JsonList) : Json
  | obj (fields : JsonFields) : Json

/-- The elements of a JSON array, in order. -/
inductive JsonList where
  | nil : JsonList
  | cons (hd : Json) (tl : JsonList) : JsonList

/-- The key/value fields of a JSON object, in insertion order
(`Object.entries` order for the non-numeric keys used by this codebase). -/
inductive JsonFields where
  | nil : JsonFields
  | cons (key : String) (val : Json) (tl : JsonFields) : JsonFields

end

/-- View a `JsonList` as a `List Json`. -/
def JsonList.toList : JsonList → List Json
  | .nil => []
  | .cons x tl => x :: tl.toList

/-- Build a `JsonList` from a `List Json`. -/
def JsonList.ofList : List Json → JsonList
  | [] => .nil
  | x :: tl => .cons x (JsonList.ofList tl)

/-- View `JsonFields` as an association list. -/
def JsonFields.toList : JsonFields → List (String × Json)
  | .nil => []
  | .cons k v tl => (k, v) :: tl.toList

/-- Build `JsonFields` from an association list. -/
def JsonFields.ofList : List (String × Json) → JsonFields
  | [] => .nil
  | (k, v) :: tl => .cons k v (JsonFields.ofList tl)

/-- One character of `JSON.stringify` string escaping: quote and backslash
are backslash-escaped, the named control characters get their short escapes,
remaining control characters get a `\u00xx` escape (lowercase hex, as
emitted by `JSON.stringify`), and every other character is passed through. -/
def escapeJsonChar (c : Char) : List Char :=
  if c = '"' then ['\\', '"']
  else if c = '\\' then ['\\', '\\']
  else if c = Char.ofNat 8 then ['\\', 'b']
  else if c = Char.ofNat 9 then ['\\', 't']
  else if c = Char.ofNat 10 then ['\\', 'n']
  else if c = Char.ofNat 12 then ['\\', 'f']
  else if c = Char.ofNat 13 then ['\\', 'r']
  else if c.toNat < 32 then
    ['\\', 'u', '0', '0', Nat.digitChar (c.toNat / 16), Nat.digitChar (c.toNat % 16)]
  else [c]

/-- The `JSON.stringify` escaping applied to a whole string. -/
def escapeJsonString (s : String) : String :=
  ⟨(s.data.map escapeJsonChar).flatten⟩

/-- A string rendered as a JSON string literal: quotes around the escaped
body. -/
def quoteJson (s : String) : String :=
  "\"" ++ escapeJsonString s ++ "\""

mutual

/-- Model of `JSON.stringify` on the values of this codebase: no
indentation, `,` and `:` separators without spaces. -/
def jsonStringify : Json → String
  | .null => "null"
  | .bool b => if b then "true" else "false"
  | .num n => toString n
  | .str s => quoteJson s
  | .arr xs => "[" ++ stringifyElems xs ++ "]"
  | .obj fs => "\x7b" ++ stringifyFields fs ++ "\x7d"

/-- Comma-separated renderings of array elements. -/
def stringifyElems : JsonList → String
  | .nil => ""
  | .cons x .nil => jsonStringify x
  | .cons x (.cons y tl) => jsonStringify x ++ "," ++ stringifyElems (.cons y tl)

/-- Comma-separated renderings of object fields. -/
def stringifyFields : JsonFields → String
  | .nil => ""
  | .cons k v .nil => quoteJson k ++ ":" ++ jsonStringify v
  | .cons k v (.cons k2 v2 tl) =>
      quoteJson k ++ ":" ++ jsonStringify v ++ "," ++ stringifyFields (.cons k2 v2 tl)

end

/-- Model of `calculateResponseSize` from `tools.ts`:
`Buffer.byteLength(JSON.stringify(data), 'utf8')`. -/
def calculateResponseSize (data : Json) : Nat :=
  (jsonStringify data).utf8ByteSize

/-- JavaScript truthiness of a JSON value (`null`, `false`, `0` and `""`
are falsy; every object and array, even empty, is truthy). -/
def jsTruthy : Json → Bool
  | .null => false
  | .bool b => b
  | .num n => n != 0
  | .str s => s != ""
  | .arr _ => true
  | .obj _ => true

/-- Model of `Array.isArray`. -/
def Json.isArray : Json → Bool
  | .arr _ => true
  | _ => false

/-- JavaScript `s || d` on strings: the empty string is falsy. -/
def jsStrOr (s d : String) : String :=
  if s = "" then d else s

/-- JavaScript `o || d` where `o` may be `undefined`: an absent or empty
string falls back to the default. -/
def jsOptStrOr (o : Option String) (d : String) : String :=
  match o with
  | some s => jsStrOr s d
  | none => d

/-- The budget guard `n > targetSize * 0.9` of `truncateObject`, computed
in exact cross-multiplied integer form (`t = t.num / t.den` with
`t.den > 0`, so `n > t * 9/10  ↔  n * t.den * 10 > t.num * 9`); the
equivalence with the rational inequality is `exceedsNinety_iff`. -/
def exceedsNinety (n : Nat) (t : ℚ) : Bool :=
  t.num * 9 < (n : Int) * (t.den : Int) * 10

/-- The quartered budget `targetSize / 4` passed to the recursive
`truncateObject` call, built with `mkRat` (`quarterBudget_eq` identifies it
with division by 4). -/
def quarterBudget (t : ℚ) : ℚ :=
  mkRat t.num (t.den * 4)

/-- The synthetic element placed at the cut point of a truncated array:
`{_truncated: "... K more items truncated"}` where `K` is the number of
dropped elements. -/
def arrayTruncMarker (dropped : Nat) : Json :=
  Json.obj (JsonFields.ofList
    [("_truncated", Json.str ("... " ++ toString dropped ++ " more items truncated"))])

/-- The synthetic field placed at the cut point of a truncated object. -/
def remainingMarkerField : String × Json :=
  ("_remaining", Json.str "... additional fields truncated")

/-- The loop of the array branch of `truncateObject`: starting from running
size `currentSize` (2 at the top call, accounting for the brackets) and
index `i` into an array of `full` elements, keep elements while
`currentSize + itemSize` does not exceed 90% of `targetSize`; at the first
element that would, emit the single marker element recording
`full - i` dropped items and stop. -/
def truncateArrayGo (full : Nat) (targetSize : ℚ) :
    List Json → Nat → Nat → List Json
  | [], _, _ => []
  | x :: rest, i, currentSize =>
    let itemSize := calculateResponseSize x
    if exceedsNinety (currentSize + itemSize) targetSize then
      [arrayTruncMarker (full - i)]
    else
      x :: truncateArrayGo full targetSize rest (i + 1) (currentSize + itemSize)

/-- The per-field rewrite of the object branch of `truncateObject`: an
array value with more than 10 elements is truncated with a quartered
budget (`truncateObject(value, targetSize / 4)`, whose array branch is
inlined here), a string value longer than 1000 characters is cut to its
first 1000 characters plus the `"... (truncated)"` suffix, and every other
value is kept as is. -/
def truncateFieldValue (targetSize : ℚ) (v : Json) : Json :=
  match v with
  | Json.arr xs =>
      if xs.toList.length > 10 then
        Json.arr (JsonList.ofList
          (truncateArrayGo xs.toList.length (quarterBudget targetSize) xs.toList 0 2))
      else v
  | Json.str s =>
      if s.length > 1000 then Json.str (s.take 1000 ++ "... (truncated)") else v
  | _ => v

/-- The loop of the object branch of `truncateObject`: fields are taken in
structural (`Object.entries`) order; the running size starts at 2 (for the
braces) and grows by the serialized size of the single-field object
`{[key]: value}`; at the first field that would push it past 90% of
`targetSize`, the single `_remaining` marker field is emitted and the loop
stops. Admitted fields are stored through `truncateFieldValue`, while the
running size accounts for the original value. -/
def truncateObjGo (targetSize : ℚ) :
    List (String × Json) → Nat → List (String × Json)
  | [], _ => []
  | (k, v) :: rest, currentSize =>
    let pairSize := calculateResponseSize (Json.obj (JsonFields.ofList [(k, v)]))
    if exceedsNinety (currentSize + pairSize) targetSize then
      [remainingMarkerField]
    else
      (k, truncateFieldValue targetSize v) ::
        truncateObjGo targetSize rest (currentSize + pairSize)

/-- Model of `truncateObject` from `tools.ts`: primitives and `null` pass through,
arrays go through the element loop, objects through the field loop. -/
def truncateObject (obj : Json) (targetSize : ℚ) : Json :=
  match obj with
  | Json.arr xs =>
      Json.arr (JsonList.ofList (truncateArrayGo xs.toList.length targetSize xs.toList 0 2))
  | Json.obj fs => Json.obj (JsonFields.ofList (truncateObjGo targetSize fs.toList 2))
  | x => x

/-- Replace the value of the first occurrence of `key` in place, or append
the pair when the key is absent — the field-order semantics of the object
literal `{...t, key: v}` for objects with unique keys. -/
def setField : List (String × Json) → String → Json → List (String × Json)
  | [], key, v => [(key, v)]
  | (k0, v0) :: rest, key, v =>
    if k0 = key then (k0, v) :: rest else (k0, v0) :: setField rest key v

/-- Decimal rendering of a natural number, used for the index keys that
JavaScript object spread produces out of arrays and strings. -/
def natDecimal (n : Nat) : String :=
  if n < 10 then String.singleton (Nat.digitChar n)
  else natDecimal (n / 10) ++ String.singleton (Nat.digitChar (n % 10))
decreasing_by exact Nat.div_lt_self (by omega) (by omega)

/-- The fields produced by spreading an array into an object literal:
decimal index keys in order. -/
def indexKeyFields (i : Nat) : List Json → List (String × Json)
  | [] => []
  | x :: rest => (natDecimal i, x) :: indexKeyFields (i + 1) rest

/-- The fields produced by spreading a string into an object literal: one
single-character string per decimal index. -/
def charIndexKeyFields (i : Nat) : List Char → List (String × Json)
  | [] => []
  | c :: rest => (natDecimal i, Json.str (String.singleton c)) :: charIndexKeyFields (i + 1) rest

/-- The object literal `{...truncated, _metadata: m}` of `truncateResponse`:
spreading an object keeps its fields (with `_metadata` overwritten in place
if already present), spreading an array or a string turns indices into
keys, and spreading any other primitive contributes nothing. -/
def spreadMeta (t : Json) (m : Json) : Json :=
  match t with
  | Json.obj fs => Json.obj (JsonFields.ofList (setField fs.toList "_metadata" m))
  | Json.arr xs =>
      Json.obj (JsonFields.ofList (indexKeyFields 0 xs.toList ++ [("_metadata", m)]))
  | Json.str s =>
      Json.obj (JsonFields.ofList (charIndexKeyFields 0 s.data ++ [("_metadata", m)]))
  | _ => Json.obj (JsonFields.ofList [("_metadata", m)])

/-- The hint text embedded in `_metadata` by `truncateResponse`. -/
def truncationMessage : String :=
  "Response was truncated due to size limits. Use more specific queries or increase MAX_RESPONSE_SIZE."

/-- The `_metadata` value attached by `truncateResponse`. -/
def truncMetaJson (originalSize truncatedSize : Nat) : Json :=
  Json.obj (JsonFields.ofList
    [("truncated", Json.bool true),
     ("originalSize", Json.num originalSize),
     ("truncatedSize", Json.num truncatedSize),
     ("message", Json.str truncationMessage)])

/-- The `metadata` half of the value returned by `truncateResponse`
(`ResponseMetadata` of `types.ts`). -/
structure ResponseMetadata where
  size : Nat
  truncated : Bool
  originalSize : Option Nat := none

/-- The `{data, metadata}` pair returned by `truncateResponse`. -/
structure BoundResult where
  data : Json
  metadata : ResponseMetadata

/-- Model of `truncateResponse` from `tools.ts`: a value that already fits in
`maxSize` bytes is returned unchanged with `truncated = false`; otherwise
the value is rewritten by `truncateObject` and the `_metadata` summary is
spread onto the result. -/
def truncateResponse (data : Json) (maxSize : Nat) : BoundResult :=
  let originalSize := calculateResponseSize data
  if originalSize ≤ maxSize then
    { data := data, metadata := { size := originalSize, truncated := false } }
  else
    let truncated := truncateObject data (maxSize : ℚ)
    let truncatedSize := calculateResponseSize truncated
    { data := spreadMeta truncated (truncMetaJson originalSize truncatedSize),
      metadata :=
        { size := truncatedSize, truncated := true, originalSize := some originalSize } }

/-- Field lookup in a JSON object (`none` on non-objects). -/
def getField (j : Json) (key : String) : Option Json :=
  match j with
  | Json.obj fs => (fs.toList.find? (fun p => p.1 == key)).map Prod.snd
  | _ => none

/-- Model of `DocumentConfig` from `types.ts`. -/
structure DocumentConfig where
  name : String
  apiEndpoint : String

/-- Model of `SearchResult` from `types.ts`. -/
structure SearchResult where
  block : Json
  documentName : Option String := none
  path : Option (List String) := none

/-- Model of `SearchResponse` from `types.ts`. -/
structure SearchResponse where
  success : Bool
  results : Option (List SearchResult) := none
  error : Option String := none

/-- Model of `BlocksResponse` from `types.ts`. -/
structure BlocksResponse where
  success : Bool
  data : Option Json := none
  error : Option String := none

/-- The outcome of one `axios.get` call against the upstream API, the only
effect in `craft-api.ts`: either the promise resolves with a 2xx response
carrying `response.data`, or it throws an `AxiosError` carrying an optional
response body (`error.response?.data`, absent on timeouts — including the
fixed 30s request timeout — and transport failures, and also covering an
`undefined` body) and a message string. -/
inductive HttpOutcome where
  | resp (data : Json)
  | err (responseData : Option Json) (message : String)

/-- The error string built by the `catch` blocks of `fetchBlocks` and
`searchBlocks`: `axiosError.response?.data ? JSON.stringify(data) :
axiosError.message || "Unknown error occurred"`. -/
def axiosCatchError (responseData : Option Json) (message : String) : String :=
  match responseData with
  | some d => if jsTruthy d then jsonStringify d else jsStrOr message "Unknown error occurred"
  | none => jsStrOr message "Unknown error occurred"

/-- Model of `fetchBlocks` from `craft-api.ts`, with the network call abstracted by
its `HttpOutcome`: a resolved call yields `{success: true, data}`, and any
thrown error is caught and converted into `{success: false, error}` — the
function never throws to its caller. -/
def fetchBlocks (outcome : HttpOutcome) : BlocksResponse :=
  match outcome with
  | .resp d => { success := true, data := some d }
  | .err rd msg => { success := false, error := some (axiosCatchError rd msg) }

/-- Model of `searchBlocks` from `craft-api.ts`: on a resolved call, an array body
is mapped element-wise into `SearchResult` wrappers and any non-array body
yields the empty result list, with `success: true` either way; a thrown
error is caught exactly as in `fetchBlocks`. -/
def searchBlocks (outcome : HttpOutcome) : SearchResponse :=
  match outcome with
  | .resp d =>
    { success := true,
      results := some (match d with
        | Json.arr xs => xs.toList.map (fun b => { block := b })
        | _ => []) }
  | .err rd msg => { success := false, error := some (axiosCatchError rd msg) }

/-- Model of `AggregatedSearchResult` from `types.ts`. -/
structure AggregatedSearchResult where
  documentName : String
  results : Option (List SearchResult) := none
  error : Option String := none

/-- The settlement of one per-document task of `searchAllNotes` under
`Promise.allSettled`: the task fulfilled with the `searchBlocks` response
it awaited, or it rejected with a reason whose optional `message` is
recorded. -/
inductive CallOutcome where
  | fulfilled (r : SearchResponse)
  | rejected (reasonMessage : Option String)

/-- The truthiness test `result.success && result.results` guarding the
success branch of the per-document arrow functions (an array, even empty,
is truthy, so only `success: false` or an absent `results` fail it). -/
def entrySuccess (r : SearchResponse) : Bool :=
  r.success && r.results.isSome

/-- Whether a settled per-document task of `searchAllNotes` produces a
`results` entry (`true`) or an `error` entry (`false`). -/
def outcomeSucceeds (o : CallOutcome) : Bool :=
  match o with
  | .fulfilled r => entrySuccess r
  | .rejected _ => false

/-- One entry of the aggregated array of `searchAllNotes`: a fulfilled
task with a successful response keeps its results, each annotated with the
source document name; a fulfilled task with a failed response records
`result.error || "Unknown error"`; a rejected task records
`reason?.message || "Promise rejected"`. -/
def perDocEntry (doc : DocumentConfig) (o : CallOutcome) : AggregatedSearchResult :=
  match o with
  | .fulfilled r =>
    if entrySuccess r then
      { documentName := doc.name,
        results := some ((r.results.getD []).map
          (fun sr => { sr with documentName := some doc.name })) }
    else
      { documentName := doc.name, error := some (jsOptStrOr r.error "Unknown error") }
  | .rejected msg =>
      { documentName := doc.name, error := some (jsOptStrOr msg "Promise rejected") }

/-- The aggregated array of `searchAllNotes`: one entry per configured
document, in configuration order (`Promise.allSettled` preserves the order
of `config.documents.map(...)`), with the settlement of document `i` given
by `env i`. -/
def aggregateFrom (env : Nat → CallOutcome) : List DocumentConfig → Nat → List AggregatedSearchResult
  | [], _ => []
  | doc :: rest, i => perDocEntry doc (env i) :: aggregateFrom env rest (i + 1)

/-- Truthiness of `doc.error` in the `errors` filter of `searchAllNotes`. -/
def errTruthy (d : AggregatedSearchResult) : Bool :=
  match d.error with
  | some s => s != ""
  | none => false

/-- The value returned by `searchAllNotes`. -/
structure SearchAllNotesResult where
  query : String
  caseSensitive : Bool
  totalResults : Nat
  documentsSearched : Nat
  results : List AggregatedSearchResult
  errors : Option (List AggregatedSearchResult)

/-- Model of `searchAllNotes` from `tools.ts`, with the concurrent per-document
calls abstracted by the settlement environment `env` (the task for the
`i`-th configured document settles as `env i`): aggregate one entry per
document, sum `doc.results?.length || 0` for `totalResults`, filter the
entries with a truthy `error` into `errors` (included only when
non-empty), and report the full configured count as `documentsSearched`. -/
def searchAllNotes (documents : List DocumentConfig) (env : Nat → CallOutcome)
    (query : String) (caseSensitive : Option Bool) : SearchAllNotesResult :=
  let aggregated := aggregateFrom env documents 0
  let totalResults := aggregated.foldl (fun sum doc => sum + (doc.results.getD []).length) 0
  let errors := aggregated.filter errTruthy
  { query := query
    caseSensitive := caseSensitive.getD false
    totalResults := totalResults
    documentsSearched := documents.length
    results := aggregated
    errors := if errors.length > 0 then some errors else none }

/-- The soft-error message of the single-document tools. -/
def docNotFoundError (documentName : String) : String :=
  "Document \"" ++ documentName ++ "\" not found"

/-- The value returned by `searchDocument`: the document-not-found soft
error with the configured name list, a successful per-document search, or
a failed upstream call. -/
inductive SearchDocumentResult where
  | notFound (error : String) (availableDocuments : List String)
  | found (documentName : String) (query : String) (caseSensitive : Bool)
      (resultCount : Nat) (results : List SearchResult)
  | failed (documentName : String) (error : String)

/-- Model of `searchDocument` from `tools.ts`, with the upstream call abstracted by
`api` mapping the chosen endpoint to its `searchBlocks` response. The
configuration is only read: an unknown name produces the soft error
carrying `config.documents.map(d => d.name)` and no upstream call. -/
def searchDocument (documents : List DocumentConfig) (api : String → SearchResponse)
    (documentName query : String) (caseSensitive : Option Bool) : SearchDocumentResult :=
  match documents.find? (fun d => d.name == documentName) with
  | none => .notFound (docNotFoundError documentName) (documents.map (fun d => d.name))
  | some doc =>
    let result := api doc.apiEndpoint
    if entrySuccess result then
      .found doc.name query (caseSensitive.getD false) (result.results.getD []).length
        ((result.results.getD []).map (fun sr => { sr with documentName := some doc.name }))
    else
      .failed doc.name (jsOptStrOr result.error "Unknown error")

/-- The truthiness test `result.success && result.data` of `readDocument`
and `readBlock` (a `data` of `0`, `""`, `false` or `null` fails it). -/
def blocksSuccess (r : BlocksResponse) : Bool :=
  r.success && (match r.data with | some d => jsTruthy d | none => false)

/-- The value returned by `readDocument`. -/
inductive ReadDocumentResult where
  | notFound (error : String) (availableDocuments : List String)
  | found (documentName : String) (maxDepth : Option Nat) (data : Json)
  | failed (documentName : String) (error : String)

/-- Model of `readDocument` from `tools.ts`, upstream call abstracted by `fetch`. -/
def readDocument (documents : List DocumentConfig) (fetch : String → BlocksResponse)
    (documentName : String) (maxDepth : Option Nat) : ReadDocumentResult :=
  match documents.find? (fun d => d.name == documentName) with
  | none => .notFound (docNotFoundError documentName) (documents.map (fun d => d.name))
  | some doc =>
    let result := fetch doc.apiEndpoint
    if blocksSuccess result then
      .found doc.name maxDepth (result.data.getD Json.null)
    else
      .failed doc.name (jsOptStrOr result.error "Unknown error")

/-- The value returned by `readBlock`. -/
inductive ReadBlockResult where
  | notFound (error : String) (availableDocuments : List String)
  | found (documentName : String) (blockId : String) (data : Json)
  | failed (documentName : String) (blockId : String) (error : String)

/-- Model of `readBlock` from `tools.ts`, upstream call abstracted by `fetch`. -/
def readBlock (documents : List DocumentConfig) (fetch : String → BlocksResponse)
    (documentName blockId : String) : ReadBlockResult :=
  match documents.find? (fun d => d.name == documentName) with
  | none => .notFound (docNotFoundError documentName) (documents.map (fun d => d.name))
  | some doc =>
    let result := fetch doc.apiEndpoint
    if blocksSuccess result then
      .found doc.name blockId (result.data.getD Json.null)
    else
      .failed doc.name blockId (jsOptStrOr result.error "Unknown error")

/-! Spec-side descriptions of the truncation pass, written from the words
of the specification ("accumulate elements while running serialized size
stays under 90% of the target budget; on first element that would exceed
it, append a single marker element describing how many items were dropped,
and stop"), to be compared with the source-side loops. -/

/-- Spec-side: the number of leading array elements admitted by the greedy
90%-of-budget accumulation that starts from running size `cs`. -/
def specGreedyCount (targetSize : ℚ) : List Json → Nat → Nat
  | [], _ => 0
  | x :: rest, cs =>
    if exceedsNinety (cs + calculateResponseSize x) targetSize then 0
    else specGreedyCount targetSize rest (cs + calculateResponseSize x) + 1

/-- Spec-side: a truncated array is the greedily admitted prefix of the
original elements followed, exactly when elements were dropped, by the one
marker element stating how many were dropped. -/
def specArrayTruncation (xs : List Json) (targetSize : ℚ) : List Json :=
  let k := specGreedyCount targetSize xs 2
  xs.take k ++ (if k < xs.length then [arrayTruncMarker (xs.length - k)] else [])

/-- Spec-side: the number of leading object fields admitted by the greedy
90%-of-budget accumulation, each field weighted by the serialized size of
its single-field object. -/
def specObjGreedyCount (targetSize : ℚ) : List (String × Json) → Nat → Nat
  | [], _ => 0
  | (k, v) :: rest, cs =>
    let pairSize := calculateResponseSize (Json.obj (JsonFields.ofList [(k, v)]))
    if exceedsNinety (cs + pairSize) targetSize then 0
    else specObjGreedyCount targetSize rest (cs + pairSize) + 1

/-- Spec-side: the per-field rewrite described by the specification — an
array-valued field with more than 10 elements is recursed into with one
quarter of the budget, a string value longer than 1000 characters becomes
its first 1000 characters plus a suffix marker, and other values are
kept. -/
def specFieldRewrite (targetSize : ℚ) (v : Json) : Json :=
  match v with
  | Json.arr xs =>
      if xs.toList.length > 10 then
        Json.arr (JsonList.ofList (specArrayTruncation xs.toList (quarterBudget targetSize)))
      else v
  | Json.str s =>
      if s.length > 1000 then Json.str (s.take 1000 ++ "... (truncated)") else v
  | _ => v

/-- Spec-side: a truncated object keeps the greedily admitted fields, in
structural order and rewritten per field, followed — exactly when fields
were dropped — by the one `_remaining` marker field. -/
def specObjectTruncation (fs : List (String × Json)) (targetSize : ℚ) :
    List (String × Json) :=
  let k := specObjGreedyCount targetSize fs 2
  (fs.take k).map (fun p => (p.1, specFieldRewrite targetSize p.2))
    ++ (if k < fs.length then [remainingMarkerField] else [])

theorem jsonList_toList_ofList (l : List Json) :
    (JsonList.ofList l).toList = l := by
  induction l with
  | nil => rfl
  | cons x tl ih => simp [JsonList.ofList, JsonList.toList, ih]

theorem jsonFields_toList_ofList (l : List (String × Json)) :
    (JsonFields.ofList l).toList = l := by
  induction l with
  | nil => rfl
  | cons p tl ih => cases p; simp [JsonFields.ofList, JsonFields.toList, ih]

theorem exceedsNinety_iff (n : Nat) (t : ℚ) :
    exceedsNinety n t = true ↔ (n : ℚ) > t * (9 / 10) := by
  have hden : (0 : ℚ) < ((t.den : ℚ) * 10) := by
    have := t.den_pos
    positivity
  have key : t * (9 / 10) < (n : ℚ) ↔
      t * (9 / 10) * ((t.den : ℚ) * 10) < (n : ℚ) * ((t.den : ℚ) * 10) :=
    (mul_lt_mul_right hden).symm
  have hnum : t * (9 / 10) * ((t.den : ℚ) * 10) = ((t.num * 9 : Int) : ℚ) := by
    have h1 : t * (t.den : ℚ) = (t.num : ℚ) := by
      have hden0 : ((t.den : ℚ)) ≠ 0 := by
        exact_mod_cast t.den_nz
      nth_rewrite 1 [← Rat.num_div_den t]
      exact div_mul_cancel₀ _ hden0
    push_cast
    calc t * (9 / 10) * ((t.den : ℚ) * 10) = t * (t.den : ℚ) * 9 := by ring
    _ = (t.num : ℚ) * 9 := by rw [h1]
  have hrhs : (n : ℚ) * ((t.den : ℚ) * 10) = (((n : Int) * (t.den : Int) * 10 : Int) : ℚ) := by
    push_cast
    ring
  rw [exceedsNinety, decide_eq_true_iff, gt_iff_lt, key, hnum, hrhs, Int.cast_lt]

theorem quarterBudget_eq (t : ℚ) : quarterBudget t = t / 4 := by
  have hden : ((t.den : ℚ)) ≠ 0 := by
    exact_mod_cast t.den_nz
  rw [quarterBudget, Rat.mkRat_eq_div]
  push_cast
  rw [div_mul_eq_div_div]
  rw [Rat.num_div_den t]

theorem specGreedyCount_le (targetSize : ℚ) :
    ∀ (xs : List Json) (cs : Nat), specGreedyCount targetSize xs cs ≤ xs.length := by
  intro xs
  induction xs with
  | nil => intro cs; simp [specGreedyCount]
  | cons x rest ih =>
    intro cs
    by_cases hc : exceedsNinety (cs + calculateResponseSize x) targetSize
    · simp [specGreedyCount, hc]
    · simp only [specGreedyCount, hc, if_false, List.length_cons]
      exact Nat.succ_le_succ (ih _)

theorem truncateArrayGo_eq (targetSize : ℚ) :
    ∀ (xs : List Json) (full i cs : Nat),
      truncateArrayGo full targetSize xs i cs
        = xs.take (specGreedyCount targetSize xs cs)
          ++ (if specGreedyCount targetSize xs cs < xs.length
              then [arrayTruncMarker (full - (i + specGreedyCount targetSize xs cs))]
              else []) := by
  intro xs
  induction xs with
  | nil => intro full i cs; simp [truncateArrayGo, specGreedyCount]
  | cons x rest ih =>
    intro full i cs
    by_cases hc : exceedsNinety (cs + calculateResponseSize x) targetSize
    · simp [truncateArrayGo, specGreedyCount, hc]
    · simp only [truncateArrayGo, specGreedyCount, hc, if_false, Bool.false_eq_true]
      rw [ih full (i + 1) (cs + calculateResponseSize x)]
      have harith : full - (i + 1 + specGreedyCount targetSize rest (cs + calculateResponseSize x))
          = full - (i + (specGreedyCount targetSize rest (cs + calculateResponseSize x) + 1)) := by
        omega
      simp [List.take, Nat.succ_lt_succ_iff, harith]

theorem specObjGreedyCount_le (targetSize : ℚ) :
    ∀ (fs : List (String × Json)) (cs : Nat),
      specObjGreedyCount targetSize fs cs ≤ fs.length := by
  intro fs
  induction fs with
  | nil => intro cs; simp [specObjGreedyCount]
  | cons p rest ih =>
    intro cs
    obtain ⟨k, v⟩ := p
    by_cases hc : exceedsNinety
        (cs + calculateResponseSize (Json.obj (JsonFields.ofList [(k, v)]))) targetSize
    · simp [specObjGreedyCount, hc]
    · simp only [specObjGreedyCount, hc, if_false, List.length_cons]
      exact Nat.succ_le_succ (ih _)

theorem truncateObjGo_eq (targetSize : ℚ) :
    ∀ (fs : List (String × Json)) (cs : Nat),
      truncateObjGo targetSize fs cs
        = (fs.take (specObjGreedyCount targetSize fs cs)).map
            (fun p => (p.1, truncateFieldValue targetSize p.2))
          ++ (if specObjGreedyCount targetSize fs cs < fs.length
              then [remainingMarkerField] else []) := by
  intro fs
  induction fs with
  | nil => intro cs; simp [truncateObjGo, specObjGreedyCount]
  | cons p rest ih =>
    intro cs
    obtain ⟨k, v⟩ := p
    by_cases hc : exceedsNinety
        (cs + calculateResponseSize (Json.obj (JsonFields.ofList [(k, v)]))) targetSize
    · simp [truncateObjGo, specObjGreedyCount, hc]
    · simp only [truncateObjGo, specObjGreedyCount, hc, if_false, Bool.false_eq_true]
      rw [ih (cs + calculateResponseSize (Json.obj (JsonFields.ofList [(k, v)])))]
      simp [List.take, Nat.succ_lt_succ_iff]

theorem truncateFieldValue_eq_spec (targetSize : ℚ) (v : Json) :
    truncateFieldValue targetSize v = specFieldRewrite targetSize v := by
  cases v with
  | arr xs =>
    simp only [truncateFieldValue, specFieldRewrite]
    split
    · rw [truncateArrayGo_eq]
      simp [specArrayTruncation]
    · rfl
  | str s => rfl
  | null => rfl
  | bool b => rfl
  | num n => rfl
  | obj fs => rfl

/-- C4: for every array input to the truncation pass, the result is the
prefix of the original elements accumulated while the running serialized
size stays within 90% of the target budget, followed — exactly when any
element was dropped — by one synthetic marker element stating how many
items were dropped; all remaining elements are discarded (never summarized
or recursed into), as captured by `specArrayTruncation`. -/
theorem C4_array_truncation_is_prefix_plus_marker (xs : JsonList) (targetSize : ℚ) :
    truncateObject (Json.arr xs) targetSize
      = Json.arr (JsonList.ofList (specArrayTruncation xs.toList targetSize)) := by
  simp only [truncateObject, specArrayTruncation]
  rw [truncateArrayGo_eq]
  simp

/-- C5: for every object input to the truncation pass, key/value pairs are
accumulated under the 90%-of-budget rule in structural order, admitted
fields are rewritten per field (arrays of more than 10 elements recursed
into with a quartered budget, strings longer than 1000 characters cut to
1000 characters plus a suffix marker), and exactly one `_remaining` marker
field is appended when the accumulation stopped early, as captured by
`specObjectTruncation`. -/
theorem C5_object_truncation_is_greedy_fields_plus_remaining (fs : JsonFields) (targetSize : ℚ) :
    truncateObject (Json.obj fs) targetSize
      = Json.obj (JsonFields.ofList (specObjectTruncation fs.toList targetSize)) := by
  have hfun : (fun p : String × Json => (p.1, truncateFieldValue targetSize p.2))
      = (fun p : String × Json => (p.1, specFieldRewrite targetSize p.2)) := by
    funext p
    rw [truncateFieldValue_eq_spec]
  simp only [truncateObject, specObjectTruncation]
  rw [truncateObjGo_eq, hfun]

/-- C6: re-binding the `data` field of a previous `truncateResponse` call
at the same budget reports `truncated = false` whenever that output now
fits within the budget. -/
theorem C6_rebound_within_budget_not_truncated (v : Json) (B : Nat)
    (h : calculateResponseSize ((truncateResponse v B).data) ≤ B) :
    (truncateResponse ((truncateResponse v B).data) B).metadata.truncated = false := by
  rw [truncateResponse]
  simp only [h, if_true]

/-- Witness for `C6_rebound_within_budget_not_truncated` at `v = 1`,
`B = 100`. -/
theorem C6_witness :
    calculateResponseSize ((truncateResponse (Json.num 1) 100).data) ≤ 100 ∧
    (truncateResponse ((truncateResponse (Json.num 1) 100).data) 100).metadata.truncated = false :=
  ⟨by decide, C6_rebound_within_budget_not_truncated (Json.num 1) 100 (by decide)⟩

theorem digitChar_ne_underscore (m : Nat) (h : m < 10) : Nat.digitChar m ≠ '_' := by
  interval_cases m <;> decide

theorem natDecimal_no_underscore (n : Nat) : '_' ∉ (natDecimal n).data := by
  induction n using Nat.strong_induction_on with
  | _ n ih =>
    rw [natDecimal]
    split
    · intro hmem
      simp only [String.singleton] at hmem
      exact digitChar_ne_underscore n (by omega) (List.mem_singleton.mp hmem).symm
    · intro hmem
      rw [String.data_append] at hmem
      rcases List.mem_append.mp hmem with hl | hr
      · exact ih (n / 10) (Nat.div_lt_self (by omega) (by omega)) hl
      · simp only [String.singleton] at hr
        exact digitChar_ne_underscore (n % 10) (Nat.mod_lt _ (by omega))
          (List.mem_singleton.mp hr).symm

theorem natDecimal_beq_metadata (n : Nat) : (natDecimal n == "_metadata") = false := by
  rw [beq_eq_false_iff_ne]
  intro h
  apply natDecimal_no_underscore n
  rw [h]
  decide

theorem find?_setField (key : String) (v : Json) :
    ∀ l : List (String × Json),
      ((setField l key v).find? (fun p => p.1 == key)).map Prod.snd = some v := by
  intro l
  induction l with
  | nil => simp [setField]
  | cons p rest ih =>
    obtain ⟨k0, v0⟩ := p
    by_cases hk : k0 = key
    · subst hk
      simp [setField]
    · simp only [setField, hk, if_false]
      rw [List.find?]
      simp only [beq_eq_false_iff_ne.mpr hk]
      exact ih

theorem find?_indexKeyFields :
    ∀ (l : List Json) (i : Nat),
      (indexKeyFields i l).find? (fun p => p.1 == "_metadata") = none := by
  intro l
  induction l with
  | nil => intro i; simp [indexKeyFields]
  | cons x rest ih =>
    intro i
    rw [indexKeyFields, List.find?]
    simp only [natDecimal_beq_metadata]
    exact ih (i + 1)

theorem find?_charIndexKeyFields :
    ∀ (l : List Char) (i : Nat),
      (charIndexKeyFields i l).find? (fun p => p.1 == "_metadata") = none := by
  intro l
  induction l with
  | nil => intro i; simp [charIndexKeyFields]
  | cons c rest ih =>
    intro i
    rw [charIndexKeyFields, List.find?]
    simp only [natDecimal_beq_metadata]
    exact ih (i + 1)

/-- Whatever shape the truncated value has, the object literal
`{...truncated, _metadata: m}` always exposes the `_metadata` field. -/
theorem getField_spreadMeta (t m : Json) :
    getField (spreadMeta t m) "_metadata" = some m := by
  cases t with
  | obj fs =>
    simp only [spreadMeta, getField, jsonFields_toList_ofList]
    exact find?_setField "_metadata" m fs.toList
  | arr xs =>
    simp only [spreadMeta, getField, jsonFields_toList_ofList, List.find?_append,
      find?_indexKeyFields]
    rfl
  | str s =>
    simp only [spreadMeta, getField, jsonFields_toList_ofList, List.find?_append,
      find?_charIndexKeyFields]
    rfl
  | null => rfl
  | bool b => rfl
  | num n => rfl

set_option maxRecDepth 20000 in
/-- C3, counterexample: the input `{"key": 123456789}` serializes to 17
bytes, exceeding the budget of 10 bytes, yet `truncateResponse` returns
data whose serialized size (the `_remaining` marker plus the spread
`_metadata` summary) still exceeds the budget — the marker and metadata
overhead is not accounted against `maxSize`. -/
theorem C3_counterexample :
    10 < calculateResponseSize (Json.obj (JsonFields.ofList [("key", Json.num 123456789)]))
    ∧ 10 < calculateResponseSize
        ((truncateResponse (Json.obj (JsonFields.ofList [("key", Json.num 123456789)])) 10).data) :=
  ⟨by decide, by decide⟩

/-- C3, amended: for every input whose serialized size exceeds the byte
budget, `truncateResponse` reports `truncated = true` with
`originalSize` equal to the input's serialized size, both in the returned
metadata and in the `_metadata` field spread into the returned data; the
serialized size of the returned data is reduced by the structural pass but
is not guaranteed to stay within the budget. -/
theorem C3_oversized_metadata (data : Json) (maxSize : Nat)
    (h : maxSize < calculateResponseSize data) :
    (truncateResponse data maxSize).metadata.truncated = true
    ∧ (truncateResponse data maxSize).metadata.originalSize = some (calculateResponseSize data)
    ∧ ∃ m, getField ((truncateResponse data maxSize).data) "_metadata" = some m
        ∧ getField m "truncated" = some (Json.bool true)
        ∧ getField m "originalSize" = some (Json.num (calculateResponseSize data)) := by
  have hnot : ¬ (calculateResponseSize data ≤ maxSize) := not_le.mpr h
  refine ⟨?_, ?_, ?_⟩
  · rw [truncateResponse]
    simp only [hnot, if_false]
  · rw [truncateResponse]
    simp only [hnot, if_false]
  · rw [truncateResponse]
    simp only [hnot, if_false]
    exact ⟨_, getField_spreadMeta _ _, rfl, rfl⟩

set_option maxRecDepth 20000 in
/-- Witness for `C3_oversized_metadata` at `{"note": "abcdefghijklmnop"}`
with budget 10. -/
theorem C3_witness :
    10 < calculateResponseSize (Json.obj (JsonFields.ofList [("note", Json.str "abcdefghijklmnop")]))
    ∧ ((truncateResponse (Json.obj (JsonFields.ofList [("note", Json.str "abcdefghijklmnop")])) 10).metadata.truncated = true
      ∧ (truncateResponse (Json.obj (JsonFields.ofList [("note", Json.str "abcdefghijklmnop")])) 10).metadata.originalSize
          = some (calculateResponseSize (Json.obj (JsonFields.ofList [("note", Json.str "abcdefghijklmnop")])))
      ∧ ∃ m, getField ((truncateResponse (Json.obj (JsonFields.ofList [("note", Json.str "abcdefghijklmnop")])) 10).data) "_metadata" = some m
          ∧ getField m "truncated" = some (Json.bool true)
          ∧ getField m "originalSize" = some (Json.num (calculateResponseSize (Json.obj (JsonFields.ofList [("note", Json.str "abcdefghijklmnop")]))))) :=
  ⟨by decide, C3_oversized_metadata _ 10 (by decide)⟩

/-- C7, counterexample: on an `AxiosError` that carries a present but
empty-string response body (the body axios yields for an empty non-2xx
response) and the 30s-timeout message, the returned `error` is the raw
failure message, not a string derived from the response body
(`JSON.stringify("") = "\"\""`). -/
theorem C7_counterexample :
    (fetchBlocks (.err (some (Json.str "")) "timeout of 30000ms exceeded")).error
        = some "timeout of 30000ms exceeded"
    ∧ jsonStringify (Json.str "") = "\"\""
    ∧ (fetchBlocks (.err (some (Json.str "")) "timeout of 30000ms exceeded")).error
        ≠ some (jsonStringify (Json.str "")) :=
  ⟨rfl, rfl, by decide⟩

/-- C7, amended: `fetchBlocks` and `searchBlocks` never throw — every
failure outcome (timeout, transport failure, non-2xx status) is caught and
returned as `success = false` with the same string `error` in both
functions, derived from the response body when a truthy body is present
and otherwise from the raw failure message, with the fallback
`"Unknown error occurred"` when that message is empty. -/
theorem C7_failures_reported_as_error (rd : Option Json) (msg : String) :
    (fetchBlocks (.err rd msg)).success = false
    ∧ (searchBlocks (.err rd msg)).success = false
    ∧ ∃ s, (fetchBlocks (.err rd msg)).error = some s
        ∧ (searchBlocks (.err rd msg)).error = some s
        ∧ ((∃ d, rd = some d ∧ jsTruthy d = true ∧ s = jsonStringify d)
           ∨ ((rd.map jsTruthy).getD false = false
              ∧ s = (if msg = "" then "Unknown error occurred" else msg))) := by
  refine ⟨rfl, rfl, axiosCatchError rd msg, rfl, rfl, ?_⟩
  cases rd with
  | none =>
    right
    exact ⟨rfl, rfl⟩
  | some d =>
    by_cases hd : jsTruthy d = true
    · left
      exact ⟨d, rfl, hd, by simp [axiosCatchError, hd]⟩
    · right
      constructor
      · simpa using hd
      · simp only [axiosCatchError, hd, if_false, Bool.false_eq_true]
        rfl

/-- C10: when the upstream search endpoint responds 2xx with a body that
is not an array, `searchBlocks` reports `success = true` with an empty
result list — indistinguishable from a search that matched nothing. -/
theorem C10_non_array_body_like_zero_matches (d : Json) (h : d.isArray = false) :
    searchBlocks (.resp d) = { success := true, results := some [], error := none }
    ∧ searchBlocks (.resp d) = searchBlocks (.resp (Json.arr JsonList.nil)) := by
  cases d <;> simp_all [searchBlocks, Json.isArray, JsonList.toList]

/-- Witness for `C10_non_array_body_like_zero_matches` at the 2xx
non-array body `7`. -/
theorem C10_witness :
    (Json.num 7).isArray = false
    ∧ (searchBlocks (.resp (Json.num 7)) = { success := true, results := some [], error := none }
       ∧ searchBlocks (.resp (Json.num 7)) = searchBlocks (.resp (Json.arr JsonList.nil))) :=
  ⟨rfl, C10_non_array_body_like_zero_matches (Json.num 7) rfl⟩

theorem perDocEntry_documentName (doc : DocumentConfig) (o : CallOutcome) :
    (perDocEntry doc o).documentName = doc.name := by
  cases o with
  | fulfilled r =>
    by_cases h : entrySuccess r = true <;> simp [perDocEntry, h]
  | rejected msg => rfl

theorem perDocEntry_fields (doc : DocumentConfig) (o : CallOutcome) :
    (perDocEntry doc o).results.isSome = outcomeSucceeds o
    ∧ (perDocEntry doc o).error.isSome = !(outcomeSucceeds o) := by
  cases o with
  | fulfilled r =>
    by_cases h : entrySuccess r = true <;> simp [perDocEntry, outcomeSucceeds, h]
  | rejected msg => simp [perDocEntry, outcomeSucceeds]

theorem jsOptStrOr_ne_empty (o : Option String) (d : String) (hd : d ≠ "") :
    jsOptStrOr o d ≠ "" := by
  cases o with
  | none => exact hd
  | some s =>
    simp only [jsOptStrOr, jsStrOr]
    by_cases hs : s = ""
    · simp [hs, hd]
    · simp [hs]

theorem perDocEntry_failed_error (doc : DocumentConfig) (o : CallOutcome)
    (h : outcomeSucceeds o = false) :
    (perDocEntry doc o).results = none ∧ errTruthy (perDocEntry doc o) = true := by
  cases o with
  | fulfilled r =>
    rw [outcomeSucceeds] at h
    refine ⟨by simp [perDocEntry, h], ?_⟩
    simp only [perDocEntry, h, if_false, Bool.false_eq_true, errTruthy]
    rw [bne_iff_ne]
    exact jsOptStrOr_ne_empty r.error "Unknown error" (by decide)
  | rejected msg =>
    refine ⟨rfl, ?_⟩
    simp only [perDocEntry, errTruthy]
    rw [bne_iff_ne]
    exact jsOptStrOr_ne_empty msg "Promise rejected" (by decide)

theorem aggregateFrom_names (env : Nat → CallOutcome) :
    ∀ (documents : List DocumentConfig) (i : Nat),
      (aggregateFrom env documents i).map (fun e => e.documentName)
        = documents.map (fun d => d.name) := by
  intro documents
  induction documents with
  | nil => intro i; rfl
  | cons doc rest ih =>
    intro i
    simp [aggregateFrom, perDocEntry_documentName, ih (i + 1)]

theorem aggregateFrom_length (env : Nat → CallOutcome) :
    ∀ (documents : List DocumentConfig) (i : Nat),
      (aggregateFrom env documents i).length = documents.length := by
  intro documents
  induction documents with
  | nil => intro i; rfl
  | cons doc rest ih =>
    intro i
    simp [aggregateFrom, ih (i + 1)]

theorem foldl_totalResults :
    ∀ (l : List AggregatedSearchResult) (n : Nat),
      l.foldl (fun sum doc => sum + (doc.results.getD []).length) n
        = n + ((l.filterMap (fun e => e.results)).map List.length).sum := by
  intro l
  induction l with
  | nil => intro n; simp
  | cons a rest ih =>
    intro n
    cases ha : a.results with
    | none => simp [List.foldl, ha, ih]
    | some r => simp [List.foldl, ha, ih, Nat.add_assoc]

/-- C1: `searchAllNotes` returns exactly one entry per configured
document, in configuration order (entry `i` carries the name of document
`i`), and `documentsSearched` is the full configured count — for every
settlement environment, i.e. regardless of which per-document calls
succeed, fail or reject. -/
theorem C1_one_entry_per_document (documents : List DocumentConfig)
    (env : Nat → CallOutcome) (query : String) (caseSensitive : Option Bool) :
    (searchAllNotes documents env query caseSensitive).results.map (fun e => e.documentName)
        = documents.map (fun d => d.name)
    ∧ (searchAllNotes documents env query caseSensitive).results.length = documents.length
    ∧ (searchAllNotes documents env query caseSensitive).documentsSearched
        = documents.length := by
  refine ⟨aggregateFrom_names env documents 0, ?_, rfl⟩
  exact aggregateFrom_length env documents 0

/-- C2: `totalResults` equals the sum of the result-array lengths of the
successful entries only (failed entries contribute nothing), and when
every per-document call fails, `totalResults = 0` while the `errors`
array has one entry per configured document. -/
theorem C2_totalResults_sums_successful (documents : List DocumentConfig)
    (env : Nat → CallOutcome) (query : String) (caseSensitive : Option Bool) :
    (searchAllNotes documents env query caseSensitive).totalResults
        = (((searchAllNotes documents env query caseSensitive).results.filterMap
            (fun e => e.results)).map List.length).sum
    ∧ ((∀ i, i < documents.length → outcomeSucceeds (env i) = false) →
        (searchAllNotes documents env query caseSensitive).totalResults = 0
        ∧ ((searchAllNotes documents env query caseSensitive).errors.getD []).length
            = documents.length) := by
  constructor
  · show (aggregateFrom env documents 0).foldl
        (fun sum doc => sum + (doc.results.getD []).length) 0
      = (((aggregateFrom env documents 0).filterMap (fun e => e.results)).map List.length).sum
    rw [foldl_totalResults, Nat.zero_add]
  · intro hfail
    have hmain : ∀ (docs : List DocumentConfig) (i : Nat),
        (∀ j, j < docs.length → outcomeSucceeds (env (i + j)) = false) →
        (aggregateFrom env docs i).filterMap (fun e => e.results) = []
        ∧ (aggregateFrom env docs i).filter errTruthy = aggregateFrom env docs i := by
      intro docs
      induction docs with
      | nil => intro i hf; exact ⟨rfl, rfl⟩
      | cons doc rest ih =>
        intro i hf
        have h0 : outcomeSucceeds (env i) = false := by
          have := hf 0 (by simp)
          simpa using this
        have hrest : ∀ j, j < rest.length → outcomeSucceeds (env (i + 1 + j)) = false := by
          intro j hj
          have := hf (j + 1) (by simpa using Nat.succ_lt_succ hj)
          rwa [show i + (j + 1) = i + 1 + j by omega] at this
        obtain ⟨hres, herr⟩ := perDocEntry_failed_error doc (env i) h0
        obtain ⟨ih1, ih2⟩ := ih (i + 1) hrest
        constructor
        · simp [aggregateFrom, List.filterMap, hres, ih1]
        · simp [aggregateFrom, List.filter, herr, ih2]
    have hfail0 : ∀ j, j < documents.length → outcomeSucceeds (env (0 + j)) = false := by
      intro j hj
      simpa using hfail j hj
    obtain ⟨h1, h2⟩ := hmain documents 0 hfail0
    constructor
    · show (aggregateFrom env documents 0).foldl
          (fun sum doc => sum + (doc.results.getD []).length) 0 = 0
      rw [foldl_totalResults, h1]
      rfl
    · show ((if ((aggregateFrom env documents 0).filter errTruthy).length > 0
          then some ((aggregateFrom env documents 0).filter errTruthy)
          else none).getD []).length = documents.length
      rw [h2, aggregateFrom_length]
      by_cases hlen : documents.length > 0
      · rw [if_pos hlen]
        simp only [Option.getD_some]
        exact aggregateFrom_length env documents 0
      · rw [if_neg hlen]
        simp only [Option.getD_none, List.length_nil]
        omega

/-- Witness for the all-fail branch of `C2_totalResults_sums_successful`:
two configured documents whose tasks both reject. -/
theorem C2_witness :
    (searchAllNotes [⟨"A", "http://a"⟩, ⟨"B", "http://b"⟩]
        (fun _ => CallOutcome.rejected none) "q" none).totalResults = 0
    ∧ ((searchAllNotes [⟨"A", "http://a"⟩, ⟨"B", "http://b"⟩]
        (fun _ => CallOutcome.rejected none) "q" none).errors.getD []).length = 2 :=
  (C2_totalResults_sums_successful [⟨"A", "http://a"⟩, ⟨"B", "http://b"⟩]
    (fun _ => CallOutcome.rejected none) "q" none).2 (fun _ _ => rfl)

/-- C9: every aggregated entry produced by `searchAllNotes` has exactly
one of `results` and `error` populated, and which one is determined by the
per-document outcome: a successful settlement populates `results` and any
failure or rejection populates `error`. -/
theorem C9_exactly_one_of_results_error (documents : List DocumentConfig)
    (env : Nat → CallOutcome) (query : String) (caseSensitive : Option Bool)
    (doc : DocumentConfig) (o : CallOutcome) :
    ((searchAllNotes documents env query caseSensitive).results.all
        (fun e => e.results.isSome != e.error.isSome)) = true
    ∧ (perDocEntry doc o).results.isSome = outcomeSucceeds o
    ∧ (perDocEntry doc o).error.isSome = !(outcomeSucceeds o) := by
  refine ⟨?_, perDocEntry_fields doc o⟩
  show ((aggregateFrom env documents 0).all
      (fun e => e.results.isSome != e.error.isSome)) = true
  have : ∀ (docs : List DocumentConfig) (i : Nat),
      ((aggregateFrom env docs i).all
        (fun e => e.results.isSome != e.error.isSome)) = true := by
    intro docs
    induction docs with
    | nil => intro i; rfl
    | cons d rest ih =>
      intro i
      rw [aggregateFrom, List.all_cons]
      obtain ⟨h1, h2⟩ := perDocEntry_fields d (env i)
      rw [h1, h2, ih (i + 1)]
      cases outcomeSucceeds (env i) <;> rfl
  exact this documents 0

/-- C8: for every document name not configured (by exact string
equality), the three single-document tools return the soft error carrying
`availableDocuments` equal to the configured name list in configuration
order, without calling upstream; the configuration itself is only ever
read. -/
theorem C8_unknown_document_soft_error (documents : List DocumentConfig)
    (api : String → SearchResponse) (fetch : String → BlocksResponse)
    (documentName query blockId : String) (caseSensitive : Option Bool)
    (maxDepth : Option Nat)
    (h : documents.all (fun d => d.name != documentName) = true) :
    searchDocument documents api documentName query caseSensitive
        = .notFound (docNotFoundError documentName) (documents.map (fun d => d.name))
    ∧ readDocument documents fetch documentName maxDepth
        = .notFound (docNotFoundError documentName) (documents.map (fun d => d.name))
    ∧ readBlock documents fetch documentName blockId
        = .notFound (docNotFoundError documentName) (documents.map (fun d => d.name)) := by
  have hfind : documents.find? (fun d => d.name == documentName) = none := by
    rw [List.find?_eq_none]
    intro x hx
    have hx2 := (List.all_eq_true.mp h) x hx
    simp only [bne_iff_ne, ne_eq] at hx2
    simp [hx2]
  refine ⟨?_, ?_, ?_⟩ <;> simp [searchDocument, readDocument, readBlock, hfind]

/-- Witness for `C8_unknown_document_soft_error`: the name `"X"` against
a two-document configuration. -/
theorem C8_witness :
    ([⟨"A", "http://a"⟩, ⟨"B", "http://b"⟩] : List DocumentConfig).all
        (fun d => d.name != "X") = true
    ∧ (searchDocument [⟨"A", "http://a"⟩, ⟨"B", "http://b"⟩]
          (fun _ => { success := false }) "X" "q" none
        = .notFound (docNotFoundError "X") ["A", "B"]
      ∧ readDocument [⟨"A", "http://a"⟩, ⟨"B", "http://b"⟩]
          (fun _ => { success := false }) "X" none
        = .notFound (docNotFoundError "X") ["A", "B"]
      ∧ readBlock [⟨"A", "http://a"⟩, ⟨"B", "http://b"⟩]
          (fun _ => { success := false }) "X" "b1"
        = .notFound (docNotFoundError "X") ["A", "B"]) :=
  ⟨by decide, C8_unknown_document_soft_error [⟨"A", "http://a"⟩, ⟨"B", "http://b"⟩]
    (fun _ => { success := false }) (fun _ => { success := false })
    "X" "q" "b1" none none (by decide)⟩

end Craft
